import Mathlib

/-!
Verification of the book-service strategy program (`src/app/main.py`).

The program is embedded shallowly: Python strings become `String`, the
`Book` class becomes a structure, each abstract strategy class becomes an
inductive type whose constructors are its concrete subclasses, and console
output is modelled as the string written to stdout (Python's `print`
appends a newline).  The command runner `main` returns the accumulated
console output together with either the resulting value (`Except.ok`) or
the `ValueError` raised on an invalid command (`Except.error`).
-/

namespace App

/-- Embeds the Python class `Book`: a holder of a `title` and a `content`
string, set in `__init__`. -/
structure Book where
  title : String
  content : String
deriving DecidableEq

/-- Python `s[::-1]`: the string with its character order reversed. -/
def strRev (s : String) : String :=
  String.mk s.data.reverse

/-- The two concrete subclasses of the abstract class `DisplayStrategy`:
`ConsoleDisplay` and `ReverseDisplay`. -/
inductive DisplayStrategy where
  | consoleDisplay
  | reverseDisplay
deriving DecidableEq

/-- The `display` method of each `DisplayStrategy` subclass; the returned
string is what the method writes to the console (`print(content)` writes
the argument followed by a newline, `print(content[::-1])` the reversed
argument followed by a newline). -/
def DisplayStrategy.display : DisplayStrategy → String → String
  | .consoleDisplay, content => content ++ "\n"
  | .reverseDisplay, content => strRev content ++ "\n"

/-- The two concrete subclasses of the abstract class `PrintStrategy`:
`ConsolePrint` and `ReversePrint`. -/
inductive PrintStrategy where
  | consolePrint
  | reversePrint
deriving DecidableEq

/-- The `print_book` method of each `PrintStrategy` subclass; the returned
string is what the method writes to the console (the f-string passed to
`print`, followed by the newline `print` appends). -/
def PrintStrategy.print_book : PrintStrategy → String → String → String
  | .consolePrint, title, content =>
      "Printing the book: " ++ title ++ "\n" ++ content ++ "\n"
  | .reversePrint, title, content =>
      "Printing the book in reverse: " ++ title ++ "...\n" ++ strRev content ++ "\n"

/-- One hexadecimal digit, lowercase, as produced by Python's `%04x`
formatting inside `json.dumps` escapes. -/
def hexDigit (n : Nat) : Char :=
  if n < 10 then Char.ofNat (48 + n) else Char.ofNat (87 + n)

/-- The four lowercase hex digits of a value below `0x10000`, as in a
`\uXXXX` escape produced by `json.dumps`. -/
def hexDigits4 (v : Nat) : List Char :=
  [hexDigit (v / 4096 % 16), hexDigit (v / 256 % 16), hexDigit (v / 16 % 16), hexDigit (v % 16)]

/-- Python `json.dumps` string escaping of one character
(`py_encode_basestring_ascii` with the default `ensure_ascii=True`):
backslash, quote and the five short control escapes get two-character
escapes, other characters in `0x20`–`0x7E` stand for themselves, and
everything else becomes `\uXXXX`, astral code points as a surrogate
pair. -/
def escChar (c : Char) : List Char :=
  if c = '"' then ['\\', '"']
  else if c = '\\' then ['\\', '\\']
  else if c = '\n' then ['\\', 'n']
  else if c = '\r' then ['\\', 'r']
  else if c = '\t' then ['\\', 't']
  else if c.toNat = 8 then ['\\', 'b']
  else if c.toNat = 12 then ['\\', 'f']
  else if 0x20 ≤ c.toNat ∧ c.toNat ≤ 0x7E then [c]
  else if c.toNat < 0x10000 then '\\' :: 'u' :: hexDigits4 c.toNat
  else ('\\' :: 'u' :: hexDigits4 (0xD800 + (c.toNat - 0x10000) / 0x400)) ++
       ('\\' :: 'u' :: hexDigits4 (0xDC00 + (c.toNat - 0x10000) % 0x400))

/-- Escaping by `json.dumps` over a whole character sequence. -/
def escList : List Char → List Char
  | [] => []
  | c :: cs => escChar c ++ escList cs

/-- A Python/JSON string literal: the escaped text between double
quotes. -/
def jsonEscapeString (s : String) : String :=
  "\"" ++ String.mk (escList s.data) ++ "\""

/-- Python `json.dumps` on a dict whose keys and values are strings, in
insertion order, with the default separators `", "` and `": "`. -/
def json_dumps (obj : List (String × String)) : String :=
  "\x7b" ++
    String.intercalate ", "
      (obj.map (fun kv => jsonEscapeString kv.1 ++ ": " ++ jsonEscapeString kv.2)) ++
  "\x7d"

/-- ElementTree `_escape_cdata` applied character-wise: the sequential
`replace` calls for `&`, `<`, `>` (in that order, so the `&` introduced by
`&amp;` is never re-escaped) amount to this character map. -/
def xmlEscapeChar (c : Char) : String :=
  if c = '&' then "&amp;"
  else if c = '<' then "&lt;"
  else if c = '>' then "&gt;"
  else String.singleton c

/-- ElementTree text-content escaping of a whole string. -/
def xmlEscapeText (s : String) : String :=
  String.join (s.data.map xmlEscapeChar)

/-- ElementTree serialization of a childless element carrying `text`: an
empty (falsy) text yields the self-closing form, otherwise the escaped
text between the tags. -/
def xmlElem (tag : String) (text : String) : String :=
  if text = "" then "<" ++ tag ++ " />"
  else "<" ++ tag ++ ">" ++ xmlEscapeText text ++ "</" ++ tag ++ ">"

/-- The two concrete subclasses of the abstract class `SerializerStrategy`:
`JsonSerialize` and `XMLSerializer`. -/
inductive SerializerStrategy where
  | jsonSerialize
  | xmlSerializer
deriving DecidableEq

/-- Embeds `JsonSerialize.serialize`:
`json.dumps({"title": book.title, "content": book.content})`. -/
def JsonSerialize.serialize (book : Book) : String :=
  json_dumps [("title", book.title), ("content", book.content)]

/-- Embeds `XMLSerializer.serialize`: builds `<book>` with `<title>` and
`<content>` children holding the respective fields as text, and renders it
with `ET.tostring(root, encoding="unicode")`. -/
def XMLSerializer.serialize (book : Book) : String :=
  "<book>" ++ xmlElem "title" book.title ++ xmlElem "content" book.content ++ "</book>"

/-- The `serialize` method of each `SerializerStrategy` subclass. -/
def SerializerStrategy.serialize : SerializerStrategy → Book → String
  | .jsonSerialize, book => JsonSerialize.serialize book
  | .xmlSerializer, book => XMLSerializer.serialize book

/-- Embeds the class `BookService`: three strategy slots, each `None`
until set. -/
structure BookService where
  display_strategy : Option DisplayStrategy
  print_strategy : Option PrintStrategy
  serializer_strategy : Option SerializerStrategy
deriving DecidableEq

/-- Embeds `BookService.set_display_strategy`. -/
def BookService.set_display_strategy (s : BookService) (st : DisplayStrategy) : BookService :=
  ⟨some st, s.print_strategy, s.serializer_strategy⟩

/-- Embeds `BookService.set_print_strategy`. -/
def BookService.set_print_strategy (s : BookService) (st : PrintStrategy) : BookService :=
  ⟨s.display_strategy, some st, s.serializer_strategy⟩

/-- Embeds `BookService.set_serializer_strategy`. -/
def BookService.set_serializer_strategy (s : BookService) (st : SerializerStrategy) : BookService :=
  ⟨s.display_strategy, s.print_strategy, some st⟩

/-- Embeds `BookService.display`: calls the selected display strategy on
`book.content`, or does nothing (writes nothing) when no strategy is
set. The returned string is the console output of the call. -/
def BookService.display (s : BookService) (book : Book) : String :=
  match s.display_strategy with
  | some st => st.display book.content
  | none => ""

/-- Embeds `BookService.print_book`: calls the selected print strategy on
`book.title, book.content`, or does nothing when no strategy is set. -/
def BookService.print_book (s : BookService) (book : Book) : String :=
  match s.print_strategy with
  | some st => st.print_book book.title book.content
  | none => ""

/-- Embeds `BookService.serialize`: returns the selected serializer's result, or
the empty string when no strategy is set. -/
def BookService.serialize (s : BookService) (book : Book) : String :=
  match s.serializer_strategy with
  | some st => st.serialize book
  | none => ""

/-- The `display_strategies` dict built inside `main`. -/
def display_strategies (name : String) : Option DisplayStrategy :=
  if name = "console" then some .consoleDisplay
  else if name = "reverse" then some .reverseDisplay
  else none

/-- The `print_strategies` dict built inside `main`. -/
def print_strategies (name : String) : Option PrintStrategy :=
  if name = "console" then some .consolePrint
  else if name = "reverse" then some .reversePrint
  else none

/-- The `serialize_strategies` dict built inside `main`. -/
def serialize_strategies (name : String) : Option SerializerStrategy :=
  if name = "json" then some .jsonSerialize
  else if name = "xml" then some .xmlSerializer
  else none

/-- The payload of the `ValueError` raised by `main` on an unknown command
or strategy: it is constructed from the offending command and method-type
strings. -/
structure InvalidCommand where
  cmd : String
  method_type : String
deriving DecidableEq

/-- The message of the raised `ValueError`:
`f"Unknown command or strategy: {cmd} with method type: {method_type}"`. -/
def invalidCommandMessage (e : InvalidCommand) : String :=
  "Unknown command or strategy: " ++ e.cmd ++ " with method type: " ++ e.method_type

/-- The `for` loop of `main` over the remaining commands, carrying the
mutable locals `book_service` and `result` and the console output written
so far.  Each arm sets the family's strategy and then invokes the service,
exactly as the Python loop body does; an unmatched pair raises
(`Except.error`) with the output produced so far left as is. -/
def mainLoop (book : Book) : List (String × String) → BookService → Option String → String →
    String × Except InvalidCommand (Option String)
  | [], _, result, out => (out, Except.ok result)
  | (cmd, method_type) :: rest, svc, result, out =>
    if cmd = "display" then
      match display_strategies method_type with
      | some st =>
          mainLoop book rest (svc.set_display_strategy st) result
            (out ++ (svc.set_display_strategy st).display book)
      | none => (out, Except.error ⟨cmd, method_type⟩)
    else if cmd = "print" then
      match print_strategies method_type with
      | some st =>
          mainLoop book rest (svc.set_print_strategy st) result
            (out ++ (svc.set_print_strategy st).print_book book)
      | none => (out, Except.error ⟨cmd, method_type⟩)
    else if cmd = "serialize" then
      match serialize_strategies method_type with
      | some st =>
          mainLoop book rest (svc.set_serializer_strategy st)
            (some ((svc.set_serializer_strategy st).serialize book)) out
      | none => (out, Except.error ⟨cmd, method_type⟩)
    else (out, Except.error ⟨cmd, method_type⟩)

/-- The function `main(book, commands)`: starts from a fresh `BookService`
(all slots `None`) and `result = None`, runs the loop, and returns the
console output together with the outcome (`result`, or the raised
error). -/
def main (book : Book) (commands : List (String × String)) :
    String × Except InvalidCommand (Option String) :=
  mainLoop book commands ⟨none, none, none⟩ none ""

/-- The console output written by a run of `main`. -/
def mainOutput (book : Book) (commands : List (String × String)) : String :=
  (main book commands).1

/-- The outcome of a run of `main`: the returned value or the raised
error. -/
def mainResult (book : Book) (commands : List (String × String)) :
    Except InvalidCommand (Option String) :=
  (main book commands).2

/-- The `sample_book` built by the driver block. -/
def sample_book : Book :=
  ⟨"Sample Book", "This is some sample content."⟩

/-- A (command, method-type) pair is accepted by some arm of `main`'s
loop. -/
def validCommand (cmd method_type : String) : Bool :=
  (cmd == "display" && (display_strategies method_type).isSome) ||
  (cmd == "print" && (print_strategies method_type).isSome) ||
  (cmd == "serialize" && (serialize_strategies method_type).isSome)

/-- The value of a single hexadecimal digit character, upper or lower
case. -/
def hexVal (c : Char) : Option Nat :=
  if '0' ≤ c ∧ c ≤ '9' then some (c.toNat - 48)
  else if 'a' ≤ c ∧ c ≤ 'f' then some (c.toNat - 87)
  else if 'A' ≤ c ∧ c ≤ 'F' then some (c.toNat - 55)
  else none

/-- The value of four hexadecimal digit characters. -/
def hex4 (a b c d : Char) : Option Nat :=
  match hexVal a, hexVal b, hexVal c, hexVal d with
  | some x, some y, some z, some w => some (4096 * x + 256 * y + 16 * z + w)
  | _, _, _, _ => none

/-- Decoding of a two-character JSON escape `\c`. -/
def simpleEsc (c : Char) : Option Char :=
  if c = '"' then some '"'
  else if c = '\\' then some '\\'
  else if c = '/' then some '/'
  else if c = 'b' then some (Char.ofNat 8)
  else if c = 'f' then some (Char.ofNat 12)
  else if c = 'n' then some '\n'
  else if c = 'r' then some '\r'
  else if c = 't' then some '\t'
  else none

/-- Decoding of the second half of a surrogate-pair escape: expects a
literal `\uXXXX` low-surrogate escape right after the high surrogate `v`,
and combines the two into the astral code point. -/
def readEscPair (v : Nat) : List Char → Option (Char × List Char)
  | b1 :: b2 :: g1 :: g2 :: g3 :: g4 :: rest3 =>
    if b1 = '\\' ∧ b2 = 'u' then
      (hex4 g1 g2 g3 g4).bind (fun w =>
        if 0xDC00 ≤ w ∧ w ≤ 0xDFFF then
          some (Char.ofNat (0x10000 + (v - 0xD800) * 0x400 + (w - 0xDC00)), rest3)
        else none)
    else none
  | _ => none

/-- Decoding of the value `v` of a `\uXXXX` escape: a high surrogate must
be followed by a paired low surrogate, an unpaired low surrogate is
rejected, and any other value is the code point itself. -/
def readEscV (v : Nat) (rest2 : List Char) : Option (Char × List Char) :=
  if 0xD800 ≤ v ∧ v ≤ 0xDBFF then readEscPair v rest2
  else if 0xDC00 ≤ v ∧ v ≤ 0xDFFF then none
  else some (Char.ofNat v, rest2)

/-- Decoding of the four hex digits of a `\uXXXX` escape. -/
def readEscU : List Char → Option (Char × List Char)
  | h1 :: h2 :: h3 :: h4 :: rest2 => (hex4 h1 h2 h3 h4).bind (fun v => readEscV v rest2)
  | _ => none

/-- Decoding of one JSON escape sequence, given the input just after the
backslash: a two-character escape, a `\uXXXX` escape, or a surrogate-pair
`\uXXXX\uXXXX` escape; returns the decoded character and the remaining
input. -/
def readEsc : List Char → Option (Char × List Char)
  | [] => none
  | e :: rest =>
    if e = 'u' then readEscU rest
    else (simpleEsc e).map (fun d => (d, rest))

/-- Standard JSON string-body decoding with explicit fuel (every step
consumes at least one input character, so fuel bounded below by the input
length suffices): reads characters and escape sequences up to the closing
quote, and returns the decoded characters together with the input
remaining after the closing quote.  Literal control characters are
rejected. -/
def parseStrBodyF : Nat → List Char → Option (List Char × List Char)
  | 0, _ => none
  | _, [] => none
  | fuel + 1, c :: rest =>
    if c = '"' then some ([], rest)
    else if c = '\\' then
      (readEsc rest).bind (fun dr =>
        Option.map (fun p => (dr.1 :: p.1, p.2)) (parseStrBodyF fuel dr.2))
    else if c.toNat < 0x20 then none
    else Option.map (fun p => (c :: p.1, p.2)) (parseStrBodyF fuel rest)

/-- Standard JSON string-body decoding (the fuel-indexed reader run with
enough fuel for its whole input). -/
def parseStrBody (l : List Char) : Option (List Char × List Char) :=
  parseStrBodyF l.length l

/-- Consumes an expected literal character sequence, returning the
remaining input. -/
def dropLit : List Char → List Char → Option (List Char)
  | [], l => some l
  | _ :: _, [] => none
  | p :: ps, c :: cs => if c = p then dropLit ps cs else none

/-- Standard JSON parsing specialised to the object shape produced by
`JsonSerialize.serialize`: an object with a `title` and a `content` key,
in that order, both string-valued; returns the decoded field values. -/
def parseBookJson (s : String) : Option (String × String) :=
  (dropLit "\x7b\"title\": \"".data s.data).bind (fun r1 =>
    (parseStrBody r1).bind (fun tr =>
      (dropLit ", \"content\": \"".data tr.2).bind (fun r3 =>
        (parseStrBody r3).bind (fun cr =>
          (dropLit "\x7d".data cr.2).bind (fun r5 =>
            if r5 = [] then some (String.mk tr.1, String.mk cr.1) else none)))))

/-- Follows the spec's words (§4.5): the serialized string produced by the
last `"serialize"` pair of the command list on the given book, or `none`
when the list has no `"serialize"` pair; used as the reference value for
the runner's return value. -/
def lastSerializeResult (book : Book) : List (String × String) → Option String
  | [] => none
  | (cmd, method_type) :: rest =>
    Option.or (lastSerializeResult book rest)
      (if cmd = "serialize" then
        Option.map (fun st => st.serialize book) (serialize_strategies method_type)
      else none)

/-- The loop of `main` with the state of the `book` object threaded
explicitly: the first component of the result is the book object as it
stands when the loop finishes.  The strategy and service methods only read
`book.title` and `book.content` and contain no attribute assignment, so
each iteration passes the book on unchanged, exactly as in the source. -/
def mainLoopB (book : Book) : List (String × String) → BookService → Option String → String →
    Book × String × Except InvalidCommand (Option String)
  | [], _, result, out => (book, out, Except.ok result)
  | (cmd, method_type) :: rest, svc, result, out =>
    if cmd = "display" then
      match display_strategies method_type with
      | some st =>
          mainLoopB book rest (svc.set_display_strategy st) result
            (out ++ (svc.set_display_strategy st).display book)
      | none => (book, out, Except.error ⟨cmd, method_type⟩)
    else if cmd = "print" then
      match print_strategies method_type with
      | some st =>
          mainLoopB book rest (svc.set_print_strategy st) result
            (out ++ (svc.set_print_strategy st).print_book book)
      | none => (book, out, Except.error ⟨cmd, method_type⟩)
    else if cmd = "serialize" then
      match serialize_strategies method_type with
      | some st =>
          mainLoopB book rest (svc.set_serializer_strategy st)
            (some ((svc.set_serializer_strategy st).serialize book)) out
      | none => (book, out, Except.error ⟨cmd, method_type⟩)
    else (book, out, Except.error ⟨cmd, method_type⟩)

/-- Runs `main` with the final state of the book object returned alongside the
run's console output and outcome. -/
def mainB (book : Book) (commands : List (String × String)) :
    Book × String × Except InvalidCommand (Option String) :=
  mainLoopB book commands ⟨none, none, none⟩ none ""

/-! ## Helper lemmas -/

theorem strMk_data (s : String) : String.mk s.data = s := by
  cases s
  rfl

theorem json_dumps_pair (k1 v1 k2 v2 : String) :
    json_dumps [(k1, v1), (k2, v2)] =
      "\x7b" ++ jsonEscapeString k1 ++ ": " ++ jsonEscapeString v1 ++ ", " ++
        jsonEscapeString k2 ++ ": " ++ jsonEscapeString v2 ++ "\x7d" := by
  apply String.ext
  simp [json_dumps, String.intercalate, String.intercalate.go, String.data_append,
    List.append_assoc]

theorem or_some_or (a : Option String) (x : String) (r : Option String) :
    Option.or (Option.or a (some x)) r = Option.or a (some x) := by
  cases a <;> rfl

theorem or_none (a : Option String) : Option.or a none = a := by
  cases a <;> rfl

/-! ## Claim theorems -/

/-- C1: running `main` on the sample book with the command list
display-reverse then serialize-xml writes exactly the character-reversed
content followed by a newline to the console and returns exactly the XML
serialization of the sample book. -/
theorem c1_sample_run :
    App.main App.sample_book [("display", "reverse"), ("serialize", "xml")] =
      (".tnetnoc elpmas emos si sihT\n",
       Except.ok (some "<book><title>Sample Book</title><content>This is some sample content.</content></book>")) :=
  rfl

/-- C4: for every book, the json serializer returns a JSON object text
with exactly the keys `title` and `content`, in that order, whose values
are the book's fields with JSON string escaping applied; on the sample
book the returned text is exactly the expected literal. -/
theorem c4_json_format (b : Book) :
    JsonSerialize.serialize b =
      "\x7b" ++ "\"title\"" ++ ": " ++ jsonEscapeString b.title ++ ", " ++
        "\"content\"" ++ ": " ++ jsonEscapeString b.content ++ "\x7d" ∧
    JsonSerialize.serialize App.sample_book =
      "\x7b\"title\": \"Sample Book\", \"content\": \"This is some sample content.\"\x7d" := by
  constructor
  · rw [show JsonSerialize.serialize b = json_dumps [("title", b.title), ("content", b.content)] from rfl,
      json_dumps_pair]
    rw [show jsonEscapeString "title" = "\"title\"" from rfl,
      show jsonEscapeString "content" = "\"content\"" from rfl]
  · rfl

/-- C5 counterexample: the console output of a print-console run on the
sample book is not the claimed text, because `print` appends a trailing
newline. -/
theorem c5_counterexample :
    App.mainOutput App.sample_book [("print", "console")] ≠
      "Printing the book: Sample Book\nThis is some sample content." := by
  decide

/-- C5 (amended): for every title and content, the console print variant
writes exactly `"Printing the book: {title}\n{content}"` followed by a
trailing newline, and on the sample book the print-console run's console
output is exactly that text followed by a newline. -/
theorem c5_console_print_output (title content : String) :
    PrintStrategy.print_book .consolePrint title content =
      "Printing the book: " ++ title ++ "\n" ++ content ++ "\n" ∧
    App.mainOutput App.sample_book [("print", "console")] =
      "Printing the book: Sample Book\nThis is some sample content.\n" :=
  ⟨rfl, rfl⟩

/-- C6: the character-order reversal used by the reverse display and
reverse print strategies is an involution. -/
theorem c6_reverse_involution (s : String) : strRev (strRev s) = s := by
  cases s with
  | mk data => simp [strRev]

/-- C8: invoking a capability on a service whose slot for that family is
unset is a no-op: display and print write nothing to the console, and
serialize returns the empty string; no error is possible. -/
theorem c8_unset_slot_noop (svc : BookService) (b : Book) :
    (svc.display_strategy = none → svc.display b = "") ∧
    (svc.print_strategy = none → svc.print_book b = "") ∧
    (svc.serializer_strategy = none → svc.serialize b = "") := by
  refine ⟨fun h => ?_, fun h => ?_, fun h => ?_⟩ <;>
    simp [BookService.display, BookService.print_book, BookService.serialize, h]

/-- Witness for C8: the fresh service of `main` has all three slots unset,
and each invocation on the sample book is a no-op or empty result. -/
theorem c8_unset_slot_noop_witness :
    BookService.display ⟨none, none, none⟩ App.sample_book = "" ∧
    BookService.print_book ⟨none, none, none⟩ App.sample_book = "" ∧
    BookService.serialize ⟨none, none, none⟩ App.sample_book = "" :=
  ⟨(c8_unset_slot_noop ⟨none, none, none⟩ App.sample_book).1 rfl,
   (c8_unset_slot_noop ⟨none, none, none⟩ App.sample_book).2.1 rfl,
   (c8_unset_slot_noop ⟨none, none, none⟩ App.sample_book).2.2 rfl⟩

/-- C10: the command runner is deterministic: two runs on books with equal
title and content and equal command lists produce identical console output
and the same outcome. -/
theorem c10_deterministic (b1 b2 : Book) (l : List (String × String))
    (ht : b1.title = b2.title) (hc : b1.content = b2.content) :
    App.main b1 l = App.main b2 l := by
  cases b1
  cases b2
  cases ht
  cases hc
  rfl

/-- Witness for C10: two separately constructed books with equal fields
yield the same run. -/
theorem c10_deterministic_witness :
    App.main ⟨"Sample Book", "This is some sample content."⟩ [("print", "console")] =
      App.main App.sample_book [("print", "console")] :=
  c10_deterministic ⟨"Sample Book", "This is some sample content."⟩ App.sample_book
    [("print", "console")] rfl rfl

/-- When every pair of `pre` is valid and `(cmd, mt)` is not, the loop
runs `pre`, then raises on `(cmd, mt)` with the output so far; the pairs
after it are never reached. -/
theorem mainLoop_firstInvalid (book : Book) (cmd mt : String) (post : List (String × String))
    (hbad : validCommand cmd mt = false) :
    ∀ (pre : List (String × String)) (svc : BookService) (res : Option String) (out : String),
      (∀ p ∈ pre, validCommand p.1 p.2 = true) →
      mainLoop book (pre ++ (cmd, mt) :: post) svc res out =
        ((mainLoop book pre svc res out).1, Except.error ⟨cmd, mt⟩) := by
  intro pre
  induction pre with
  | nil =>
    intro svc res out _
    simp only [List.nil_append]
    by_cases hd : cmd = "display"
    · subst hd
      have hnone : display_strategies mt = none := by
        cases h : display_strategies mt with
        | none => rfl
        | some st => simp [validCommand, h] at hbad
      simp [mainLoop, hnone]
    · by_cases hp : cmd = "print"
      · subst hp
        have hnone : print_strategies mt = none := by
          cases h : print_strategies mt with
          | none => rfl
          | some st => simp [validCommand, h] at hbad
        simp [mainLoop, hnone, hd]
      · by_cases hs : cmd = "serialize"
        · subst hs
          have hnone : serialize_strategies mt = none := by
            cases h : serialize_strategies mt with
            | none => rfl
            | some st => simp [validCommand, h] at hbad
          simp [mainLoop, hnone, hd, hp]
        · simp [mainLoop, hd, hp, hs]
  | cons p pre ih =>
    intro svc res out hval
    obtain ⟨c, m⟩ := p
    have hv : validCommand c m = true := hval (c, m) (List.mem_cons_self _ _)
    have hrest : ∀ p ∈ pre, validCommand p.1 p.2 = true :=
      fun q hq => hval q (List.mem_cons_of_mem _ hq)
    by_cases hd : c = "display"
    · subst hd
      obtain ⟨st, hst⟩ : ∃ st, display_strategies m = some st := by
        cases h : display_strategies m with
        | some st => exact ⟨st, rfl⟩
        | none => simp [validCommand, h] at hv
      simp only [List.cons_append, mainLoop, hst]
      simp only [reduceIte]
      exact ih _ _ _ hrest
    · by_cases hp : c = "print"
      · subst hp
        obtain ⟨st, hst⟩ : ∃ st, print_strategies m = some st := by
          cases h : print_strategies m with
          | some st => exact ⟨st, rfl⟩
          | none => simp [validCommand, h] at hv
        simp only [List.cons_append, mainLoop, hst]
        simp only [reduceIte]
        exact ih _ _ _ hrest
      · by_cases hs : c = "serialize"
        · subst hs
          obtain ⟨st, hst⟩ : ∃ st, serialize_strategies m = some st := by
            cases h : serialize_strategies m with
            | some st => exact ⟨st, rfl⟩
            | none => simp [validCommand, h] at hv
          simp only [List.cons_append, mainLoop, hst]
          simp only [reduceIte]
          exact ih _ _ _ hrest
        · simp [validCommand, hd, hp, hs] at hv



/-- C2: for every book and command list with a first invalid pair, `main`
fails at that pair with an invalid-command error carrying both the command
and the variant strings (and whose `ValueError` message is built from
both), the console output is exactly that of the valid pairs before it (no
later pair is processed), and no result value is returned. -/
theorem c2_first_invalid_fails (book : Book) (pre post : List (String × String)) (cmd mt : String)
    (hpre : ∀ p ∈ pre, validCommand p.1 p.2 = true) (hbad : validCommand cmd mt = false) :
    App.main book (pre ++ (cmd, mt) :: post) =
      (App.mainOutput book pre, Except.error ⟨cmd, mt⟩) ∧
    invalidCommandMessage ⟨cmd, mt⟩ =
      "Unknown command or strategy: " ++ cmd ++ " with method type: " ++ mt := by
  refine ⟨?_, rfl⟩
  unfold main mainOutput App.main
  exact mainLoop_firstInvalid book cmd mt post hbad pre _ _ _ hpre

/-- Witness for C2: a concrete run with a valid pair, then an invalid one,
then a further pair that is never reached. -/
theorem c2_first_invalid_fails_witness :
    (∀ p ∈ [(("display" : String), ("console" : String))], validCommand p.1 p.2 = true) ∧
    validCommand "bogus" "xml" = false ∧
    App.main App.sample_book
        ([("display", "console")] ++ ("bogus", "xml") :: [("print", "console")]) =
      (App.mainOutput App.sample_book [("display", "console")], Except.error ⟨"bogus", "xml"⟩) :=
  ⟨by decide, by decide,
   (c2_first_invalid_fails App.sample_book [("display", "console")] [("print", "console")]
     "bogus" "xml" (by decide) (by decide)).1⟩

/-- On an all-valid command list the loop succeeds, and its result is the
last serialize output of the list, or the incoming result value when the
list has no serialize pair. -/
theorem mainLoop_valid_result (book : Book) :
    ∀ (l : List (String × String)) (svc : BookService) (res : Option String) (out : String),
      (∀ p ∈ l, validCommand p.1 p.2 = true) →
      (mainLoop book l svc res out).2 =
        Except.ok (Option.or (lastSerializeResult book l) res) := by
  intro l
  induction l with
  | nil => intro svc res out _; rfl
  | cons p rest ih =>
    intro svc res out hval
    obtain ⟨c, m⟩ := p
    have hv : validCommand c m = true := hval (c, m) (List.mem_cons_self _ _)
    have hrest : ∀ p ∈ rest, validCommand p.1 p.2 = true :=
      fun q hq => hval q (List.mem_cons_of_mem _ hq)
    by_cases hd : c = "display"
    · subst hd
      obtain ⟨st, hst⟩ : ∃ st, display_strategies m = some st := by
        cases h : display_strategies m with
        | some st => exact ⟨st, rfl⟩
        | none => simp [validCommand, h] at hv
      simp only [mainLoop, lastSerializeResult, hst]
      simp only [reduceIte]
      rw [ih _ _ _ hrest]
      simp [or_none]
    · by_cases hp : c = "print"
      · subst hp
        obtain ⟨st, hst⟩ : ∃ st, print_strategies m = some st := by
          cases h : print_strategies m with
          | some st => exact ⟨st, rfl⟩
          | none => simp [validCommand, h] at hv
        simp only [mainLoop, lastSerializeResult, hst, if_true]
        rw [if_neg hd]
        rw [ih _ _ _ hrest]
        simp [or_none]
      · by_cases hs : c = "serialize"
        · subst hs
          obtain ⟨st, hst⟩ : ∃ st, serialize_strategies m = some st := by
            cases h : serialize_strategies m with
            | some st => exact ⟨st, rfl⟩
            | none => simp [validCommand, h] at hv
          simp only [mainLoop, lastSerializeResult, hst, if_true]
          rw [if_neg hd, if_neg hp]
          rw [ih _ _ _ hrest]
          simp [BookService.serialize, BookService.set_serializer_strategy, or_some_or]
        · simp [validCommand, hd, hp, hs] at hv

/-- C3: for every book and every all-valid command list, `main` returns
the serialized string of the last serialize pair, and `none` when the list
has no serialize pair (in particular on the empty list). -/
theorem c3_last_serialize (book : Book) (l : List (String × String))
    (h : ∀ p ∈ l, validCommand p.1 p.2 = true) :
    App.mainResult book l = Except.ok (lastSerializeResult book l) := by
  unfold mainResult App.main
  rw [mainLoop_valid_result book l _ _ _ h, or_none]

/-- Witness for C3: a run whose last serialize pair is xml returns the XML
serialization, and the empty command list returns `none`. -/
theorem c3_last_serialize_witness :
    (∀ p ∈ [(("serialize" : String), ("json" : String)), ("display", "console"), ("serialize", "xml")],
      validCommand p.1 p.2 = true) ∧
    App.mainResult App.sample_book
        [("serialize", "json"), ("display", "console"), ("serialize", "xml")] =
      Except.ok (some "<book><title>Sample Book</title><content>This is some sample content.</content></book>") ∧
    App.mainResult App.sample_book [] = Except.ok none :=
  ⟨by decide,
   (c3_last_serialize App.sample_book
     [("serialize", "json"), ("display", "console"), ("serialize", "xml")] (by decide)).trans rfl,
   (c3_last_serialize App.sample_book [] (by decide)).trans rfl⟩

/-- The book-threading loop agrees with `mainLoop` and always returns the
book it was given: no iteration mutates the book. -/
theorem mainLoopB_eq (book : Book) :
    ∀ (l : List (String × String)) (svc : BookService) (res : Option String) (out : String),
      mainLoopB book l svc res out = (book, mainLoop book l svc res out) := by
  intro l
  induction l with
  | nil => intro svc res out; rfl
  | cons p rest ih =>
    intro svc res out
    obtain ⟨c, m⟩ := p
    simp only [mainLoopB, mainLoop]
    by_cases hd : c = "display"
    · subst hd
      simp only [if_true, reduceIte]
      cases display_strategies m with
      | some st => exact ih _ _ _
      | none => rfl
    · rw [if_neg hd, if_neg hd]
      by_cases hp : c = "print"
      · subst hp
        simp only [if_true, reduceIte]
        cases print_strategies m with
        | some st => exact ih _ _ _
        | none => rfl
      · rw [if_neg hp, if_neg hp]
        by_cases hs : c = "serialize"
        · subst hs
          simp only [if_true, reduceIte]
          cases serialize_strategies m with
          | some st => exact ih _ _ _
          | none => rfl
        · rw [if_neg hs, if_neg hs]

/-- C9: after a run of `main` (returning or failing), the entity's title
and content are their values from before the run, and the run's outcome is
that of `main`: no operation of the system mutates the book. -/
theorem c9_book_unchanged (b : Book) (l : List (String × String)) :
    (mainB b l).1.title = b.title ∧ (mainB b l).1.content = b.content ∧
    (mainB b l).2 = App.main b l := by
  unfold mainB App.main
  rw [mainLoopB_eq]
  exact ⟨rfl, rfl, rfl⟩

/-- Reading back a single emitted hex digit. -/
theorem hexVal_hexDigit : ∀ n, n < 16 → hexVal (hexDigit n) = some n := by decide

/-- Reading back the four emitted hex digits of a value below `0x10000`. -/
theorem hex4_digits (v : Nat) (h : v < 65536) :
    hex4 (hexDigit (v / 4096 % 16)) (hexDigit (v / 256 % 16))
      (hexDigit (v / 16 % 16)) (hexDigit (v % 16)) = some v := by
  unfold hex4
  rw [hexVal_hexDigit _ (by omega), hexVal_hexDigit _ (by omega),
    hexVal_hexDigit _ (by omega), hexVal_hexDigit _ (by omega)]
  exact congrArg some (by omega :
    4096 * (v / 4096 % 16) + 256 * (v / 256 % 16) + 16 * (v / 16 % 16) + v % 16 = v)

/-- A `Char`'s code point is never a surrogate and is below `0x110000`. -/
theorem char_valid_nat (c : Char) :
    c.toNat < 0xd800 ∨ (0xdfff < c.toNat ∧ c.toNat < 0x110000) := c.valid

/-- Lemma: `readEsc` decodes a two-character escape. -/
theorem readEsc_simple (e d : Char) (l : List Char) (hu : e ≠ 'u')
    (hd : simpleEsc e = some d) : readEsc (e :: l) = some (d, l) := by
  simp only [readEsc]
  rw [if_neg hu, hd]
  rfl

/-- Lemma: `readEsc` decodes a non-surrogate `\uXXXX` escape. -/
theorem readEsc_u (h1 h2 h3 h4 : Char) (v : Nat) (l : List Char)
    (hx : hex4 h1 h2 h3 h4 = some v)
    (hs1 : ¬(0xD800 ≤ v ∧ v ≤ 0xDBFF)) (hs2 : ¬(0xDC00 ≤ v ∧ v ≤ 0xDFFF)) :
    readEsc ('u' :: h1 :: h2 :: h3 :: h4 :: l) = some (Char.ofNat v, l) := by
  show (hex4 h1 h2 h3 h4).bind (fun v => readEscV v l) = some (Char.ofNat v, l)
  rw [hx, Option.some_bind]
  unfold readEscV
  rw [if_neg hs1, if_neg hs2]

/-- Lemma: `readEsc` decodes a surrogate-pair escape. -/
theorem readEsc_uu (h1 h2 h3 h4 g1 g2 g3 g4 : Char) (v w : Nat) (l : List Char)
    (hx : hex4 h1 h2 h3 h4 = some v) (hy : hex4 g1 g2 g3 g4 = some w)
    (hs1 : 0xD800 ≤ v ∧ v ≤ 0xDBFF) (hs2 : 0xDC00 ≤ w ∧ w ≤ 0xDFFF) :
    readEsc ('u' :: h1 :: h2 :: h3 :: h4 :: '\\' :: 'u' :: g1 :: g2 :: g3 :: g4 :: l) =
      some (Char.ofNat (0x10000 + (v - 0xD800) * 0x400 + (w - 0xDC00)), l) := by
  show (hex4 h1 h2 h3 h4).bind
      (fun v => readEscV v ('\\' :: 'u' :: g1 :: g2 :: g3 :: g4 :: l)) =
    some (Char.ofNat (0x10000 + (v - 0xD800) * 0x400 + (w - 0xDC00)), l)
  rw [hx, Option.some_bind]
  unfold readEscV
  rw [if_pos hs1]
  show (hex4 g1 g2 g3 g4).bind (fun w =>
      if 0xDC00 ≤ w ∧ w ≤ 0xDFFF then
        some (Char.ofNat (0x10000 + (v - 0xD800) * 0x400 + (w - 0xDC00)), l)
      else none) =
    some (Char.ofNat (0x10000 + (v - 0xD800) * 0x400 + (w - 0xDC00)), l)
  rw [hy, Option.some_bind]
  rw [if_pos hs2]



/-- One parsing step through a backslash escape. -/
theorem parseStrBodyF_step_esc (f : Nat) (tail : List Char) (d : Char) (l2 : List Char)
    (hre : readEsc tail = some (d, l2)) :
    parseStrBodyF (f + 1) ('\\' :: tail) =
      Option.map (fun p => (d :: p.1, p.2)) (parseStrBodyF f l2) := by
  simp only [parseStrBodyF]
  rw [if_neg (by decide : ¬('\\' : Char) = '"')]
  rw [if_true, hre, Option.some_bind]

/-- One parsing step through a plain character. -/
theorem parseStrBodyF_step_plain (f : Nat) (c : Char) (tail : List Char)
    (h1 : ¬c = '"') (h2 : ¬c = '\\') (h3 : ¬c.toNat < 0x20) :
    parseStrBodyF (f + 1) (c :: tail) =
      Option.map (fun p => (c :: p.1, p.2)) (parseStrBodyF f tail) := by
  simp only [parseStrBodyF]
  rw [if_neg h1, if_neg h2, if_neg h3]

/-- Parsing stops at the closing quote. -/
theorem parseStrBodyF_quote (f : Nat) (tail : List Char) :
    parseStrBodyF (f + 1) ('"' :: tail) = some ([], tail) := by
  simp only [parseStrBodyF]
  rw [if_true]



/-- Round trip of the string-body reader over `json.dumps` escaping, for
any sufficient fuel: parsing the escaped text followed by a closing quote
recovers the original characters and the remaining input. -/
theorem parseStrBodyF_escList (rest : List Char) :
    ∀ (s : List Char) (fuel : Nat), (escList s).length < fuel →
      parseStrBodyF fuel (escList s ++ '"' :: rest) = some (s, rest) := by
  intro s
  induction s with
  | nil =>
    intro fuel hf
    obtain ⟨f, rfl⟩ : ∃ f, fuel = f + 1 := ⟨fuel - 1, by omega⟩
    simpa [escList] using parseStrBodyF_quote f rest
  | cons c cs ih =>
    intro fuel hf
    obtain ⟨f, rfl⟩ : ∃ f, fuel = f + 1 := ⟨fuel - 1, by omega⟩
    simp only [escList, List.append_assoc] at hf ⊢
    by_cases h1 : c = '"'
    · subst h1
      have hlen : (escList cs).length < f := by
        rw [show escChar '"' = ['\\', '"'] from rfl] at hf
        simp [List.length_append] at hf
        omega
      rw [show escChar '"' = ['\\', '"'] from rfl]
      simp only [List.cons_append, List.nil_append]
      rw [parseStrBodyF_step_esc f _ '"' _ (readEsc_simple '"' '"' _ (by decide) (by decide))]
      rw [ih f hlen]
      rfl
    · by_cases h2 : c = '\\'
      · subst h2
        have hlen : (escList cs).length < f := by
          rw [show escChar '\\' = ['\\', '\\'] from rfl] at hf
          simp [List.length_append] at hf
          omega
        rw [show escChar '\\' = ['\\', '\\'] from rfl]
        simp only [List.cons_append, List.nil_append]
        rw [parseStrBodyF_step_esc f _ '\\' _
          (readEsc_simple '\\' '\\' _ (by decide) (by decide))]
        rw [ih f hlen]
        rfl
      · by_cases h3 : c = '\n'
        · subst h3
          have hlen : (escList cs).length < f := by
            rw [show escChar '\n' = ['\\', 'n'] from rfl] at hf
            simp [List.length_append] at hf
            omega
          rw [show escChar '\n' = ['\\', 'n'] from rfl]
          simp only [List.cons_append, List.nil_append]
          rw [parseStrBodyF_step_esc f _ '\n' _
            (readEsc_simple 'n' '\n' _ (by decide) (by decide))]
          rw [ih f hlen]
          rfl
        · by_cases h4 : c = '\r'
          · subst h4
            have hlen : (escList cs).length < f := by
              rw [show escChar '\r' = ['\\', 'r'] from rfl] at hf
              simp [List.length_append] at hf
              omega
            rw [show escChar '\r' = ['\\', 'r'] from rfl]
            simp only [List.cons_append, List.nil_append]
            rw [parseStrBodyF_step_esc f _ '\r' _
              (readEsc_simple 'r' '\r' _ (by decide) (by decide))]
            rw [ih f hlen]
            rfl
          · by_cases h5 : c = '\t'
            · subst h5
              have hlen : (escList cs).length < f := by
                rw [show escChar '\t' = ['\\', 't'] from rfl] at hf
                simp [List.length_append] at hf
                omega
              rw [show escChar '\t' = ['\\', 't'] from rfl]
              simp only [List.cons_append, List.nil_append]
              rw [parseStrBodyF_step_esc f _ '\t' _
                (readEsc_simple 't' '\t' _ (by decide) (by decide))]
              rw [ih f hlen]
              rfl
            · by_cases h6 : c.toNat = 8
              · have hesc : escChar c = ['\\', 'b'] := by
                  unfold escChar
                  rw [if_neg h1, if_neg h2, if_neg h3, if_neg h4, if_neg h5, if_pos h6]
                have hlen : (escList cs).length < f := by
                  rw [hesc] at hf
                  simp [List.length_append] at hf
                  omega
                have hc : Char.ofNat 8 = c := by
                  rw [show (8 : Nat) = c.toNat from h6.symm, Char.ofNat_toNat]
                rw [hesc]
                simp only [List.cons_append, List.nil_append]
                rw [parseStrBodyF_step_esc f _ (Char.ofNat 8) _
                  (readEsc_simple 'b' (Char.ofNat 8) _ (by decide) (by decide))]
                rw [ih f hlen, hc]
                rfl
              · by_cases h7 : c.toNat = 12
                · have hesc : escChar c = ['\\', 'f'] := by
                    unfold escChar
                    rw [if_neg h1, if_neg h2, if_neg h3, if_neg h4, if_neg h5, if_neg h6,
                      if_pos h7]
                  have hlen : (escList cs).length < f := by
                    rw [hesc] at hf
                    simp [List.length_append] at hf
                    omega
                  have hc : Char.ofNat 12 = c := by
                    rw [show (12 : Nat) = c.toNat from h7.symm, Char.ofNat_toNat]
                  rw [hesc]
                  simp only [List.cons_append, List.nil_append]
                  rw [parseStrBodyF_step_esc f _ (Char.ofNat 12) _
                    (readEsc_simple 'f' (Char.ofNat 12) _ (by decide) (by decide))]
                  rw [ih f hlen, hc]
                  rfl
                · by_cases h8 : 0x20 ≤ c.toNat ∧ c.toNat ≤ 0x7E
                  · have hesc : escChar c = [c] := by
                      unfold escChar
                      rw [if_neg h1, if_neg h2, if_neg h3, if_neg h4, if_neg h5, if_neg h6,
                        if_neg h7, if_pos h8]
                    have hlen : (escList cs).length < f := by
                      rw [hesc] at hf
                      simp [List.length_append] at hf
                      omega
                    rw [hesc]
                    simp only [List.cons_append, List.nil_append]
                    rw [parseStrBodyF_step_plain f c _ h1 h2 (by omega)]
                    rw [ih f hlen]
                    rfl
                  · by_cases h9 : c.toNat < 0x10000
                    · have hesc : escChar c = '\\' :: 'u' :: hexDigits4 c.toNat := by
                        unfold escChar
                        rw [if_neg h1, if_neg h2, if_neg h3, if_neg h4, if_neg h5, if_neg h6,
                          if_neg h7, if_neg h8, if_pos h9]
                      have hlen : (escList cs).length < f := by
                        rw [hesc] at hf
                        simp [hexDigits4, List.length_append] at hf
                        omega
                      have hv := char_valid_nat c
                      rw [hesc]
                      simp only [hexDigits4, List.cons_append, List.nil_append]
                      rw [parseStrBodyF_step_esc f _ (Char.ofNat c.toNat) _
                        (readEsc_u _ _ _ _ c.toNat _ (hex4_digits c.toNat (by omega))
                          (by omega) (by omega))]
                      rw [ih f hlen, Char.ofNat_toNat]
                      rfl
                    · have hesc : escChar c =
                          ('\\' :: 'u' :: hexDigits4 (0xD800 + (c.toNat - 0x10000) / 0x400)) ++
                          ('\\' :: 'u' :: hexDigits4 (0xDC00 + (c.toNat - 0x10000) % 0x400)) := by
                        unfold escChar
                        rw [if_neg h1, if_neg h2, if_neg h3, if_neg h4, if_neg h5, if_neg h6,
                          if_neg h7, if_neg h8, if_neg h9]
                      have hlen : (escList cs).length < f := by
                        rw [hesc] at hf
                        simp [hexDigits4, List.length_append] at hf
                        omega
                      have hv := char_valid_nat c
                      rw [hesc]
                      simp only [hexDigits4, List.cons_append, List.nil_append,
                        List.append_assoc]
                      rw [parseStrBodyF_step_esc f _
                        (Char.ofNat (0x10000 +
                          (0xD800 + (c.toNat - 0x10000) / 0x400 - 0xD800) * 0x400 +
                          (0xDC00 + (c.toNat - 0x10000) % 0x400 - 0xDC00))) _
                        (readEsc_uu _ _ _ _ _ _ _ _
                          (0xD800 + (c.toNat - 0x10000) / 0x400)
                          (0xDC00 + (c.toNat - 0x10000) % 0x400) _
                          (hex4_digits _ (by omega)) (hex4_digits _ (by omega))
                          (by constructor <;> omega) (by constructor <;> omega))]
                      rw [show 0x10000 +
                          (0xD800 + (c.toNat - 0x10000) / 0x400 - 0xD800) * 0x400 +
                          (0xDC00 + (c.toNat - 0x10000) % 0x400 - 0xDC00) = c.toNat by omega]
                      rw [ih f hlen, Char.ofNat_toNat]
                      rfl



/-- The characters of a freshly built string. -/
theorem data_mk (l : List Char) : (String.mk l).data = l := rfl

/-- Consuming an expected literal leaves exactly the rest. -/
theorem dropLit_append (p : List Char) : ∀ r, dropLit p (p ++ r) = some r := by
  induction p with
  | nil => intro r; rfl
  | cons c cs ih => intro r; simp [dropLit, ih]

/-- Consuming an expected literal standing alone leaves nothing. -/
theorem dropLit_self (p : List Char) : dropLit p p = some [] := by
  have := dropLit_append p []
  rwa [List.append_nil] at this

/-- Round trip of the string-body reader at its standard fuel. -/
theorem parseStrBody_escList (s rest : List Char) :
    parseStrBody (escList s ++ '"' :: rest) = some (s, rest) := by
  unfold parseStrBody
  apply parseStrBodyF_escList
  rw [List.length_append]
  simp

/-- C7: for every book, parsing the JSON text produced by the json
serializer yields exactly the book's title and content (the JSON
serialization round-trips). -/
theorem c7_json_round_trip (b : Book) :
    parseBookJson (JsonSerialize.serialize b) = some (b.title, b.content) := by
  have hs : (JsonSerialize.serialize b).data =
      "\x7b\"title\": \"".data ++ (escList b.title.data ++
        ('"' :: (", \"content\": \"".data ++ (escList b.content.data ++
          ('"' :: "\x7d".data))))) := by
    rw [show JsonSerialize.serialize b =
      json_dumps [("title", b.title), ("content", b.content)] from rfl, json_dumps_pair]
    rw [show jsonEscapeString "title" = "\"title\"" from rfl,
      show jsonEscapeString "content" = "\"content\"" from rfl]
    unfold jsonEscapeString
    simp only [String.data_append, data_mk, List.append_assoc]
    simp
  unfold parseBookJson
  rw [hs, dropLit_append]
  simp only [Option.some_bind]
  rw [parseStrBody_escList]
  simp only [Option.some_bind]
  rw [dropLit_append]
  simp only [Option.some_bind]
  rw [parseStrBody_escList]
  simp only [Option.some_bind]
  rw [dropLit_self]
  simp only [Option.some_bind, if_true, reduceIte]

end App
